import Mathlib

/-!
# Verification of the thread-manager repository

Shallow embedding of `src/thread-manager.js` and `src/web-thread.js`
(ThreadManagerService.js, Marco Castiello, 2020).

JavaScript values crossing the worker boundary are modelled by `JSVal`;
the module-level scheduler state (`threadLimit`, `sharedMemory`,
`threadQueue`, `threadRunning`) becomes an explicit `SchedState` record,
and every function that mutates that state is translated to a Lean
function from state to state, paired with the ordered list of observable
events (messages posted to workers, promise settlements, dispatched
`terminate` events) it produces.
-/

/-- A JavaScript value as it appears in results handed to `exit(value)`
and in the shared-memory store.  The four constructors other than
`primitive`/`object`/`jsNull` model instances of the four classes listed
in `supportedTransferable` inside `exitFunction`
(`ArrayBuffer` carries its bytes, the others an opaque tag).
`object` models a plain object with enumerable string-keyed properties
(the only kind whose properties the `for (let i in obj)` walk visits:
`ArrayBuffer`, `MessagePort`, `ImageBitmap` and `OffscreenCanvas`
instances have no enumerable properties). -/
inductive JSVal where
  | primitive : Nat → JSVal
  | arrayBuffer : List Nat → JSVal
  | messagePort : Nat → JSVal
  | imageBitmap : Nat → JSVal
  | offscreenCanvas : Nat → JSVal
  | object : List (String × JSVal) → JSVal
  | jsNull : JSVal

/-- Truthiness of the value returned by a JavaScript call that may
return `undefined` (modelled as `none`): `undefined` is falsy. -/
def jsTruthy : Option Bool → Bool
  | none => false
  | some b => b

/-- The four class names in the `supportedTransferable` array of
`exitFunction`. -/
inductive TransferClass where
  | arrayBufferC | messagePortC | imageBitmapC | offscreenCanvasC

/-- `supportedTransferable` from `exitFunction`. -/
def supportedTransferable : List TransferClass :=
  [.arrayBufferC, .messagePortC, .imageBitmapC, .offscreenCanvasC]

/-- `obj instanceof ref` for the four transferable classes. -/
def instanceOf (obj : JSVal) : TransferClass → Bool
  | .arrayBufferC => match obj with | .arrayBuffer _ => true | _ => false
  | .messagePortC => match obj with | .messagePort _ => true | _ => false
  | .imageBitmapC => match obj with | .imageBitmap _ => true | _ => false
  | .offscreenCanvasC => match obj with | .offscreenCanvas _ => true | _ => false

/-- `Boolean(obj)` for a `JSVal`: `null` is falsy, `0` is falsy, every
object is truthy.  (Strings are not distinguished from numbers here;
only objects reach the instance checks anyway.) -/
def jsBoolean : JSVal → Bool
  | .jsNull => false
  | .primitive n => n ≠ 0
  | _ => true

/-- The value held by the local variable `result` inside `isTransferable`
after its `for (let cls of supportedTransferable)` loop:
`result` starts as `Boolean(obj)` and is conjoined with
`obj instanceof ref` for EVERY class of `supportedTransferable` in turn
(the loop `break`s once `result` is false).  Note that this demands the
object be an instance of all four classes at once, so it is false for
every actual value; and in any case `isTransferable` never returns it. -/
def isTransferableLocalResult (obj : JSVal) : Bool :=
  supportedTransferable.foldl
    (fun result cls => result && instanceOf obj cls) (jsBoolean obj)

/-- `isTransferable` from `exitFunction`.  The arrow-function body
assigns the local `result` (see `isTransferableLocalResult`) but
contains no `return` statement, so the call always evaluates to
`undefined`, modelled as `none`. -/
def isTransferable (_obj : JSVal) : Option Bool := none

mutual
/-- `checkForTransferable` from `exitFunction`: if `isTransferable(obj)`
is truthy the object is pushed on the transfer list; otherwise, when
`obj && typeof obj === "object"`, the walk recurses into the enumerable
properties (`for (let i in obj)`) — only plain objects have any.
The returned list is the contents pushed, in push order. -/
def checkForTransferable (obj : JSVal) : List JSVal :=
  if jsTruthy (isTransferable obj) then [obj]
  else
    match obj with
    | .object kvs => checkForTransferableProps kvs
    | _ => []

/-- The `for (let i in obj)` loop body of `checkForTransferable`,
applied to each enumerable property value in order. -/
def checkForTransferableProps : List (String × JSVal) → List JSVal
  | [] => []
  | (_, v) :: rest => checkForTransferable v ++ checkForTransferableProps rest
end

/-- The pair of arguments `exitFunction` passes to `self.postMessage`:
the `thread-terminate` message carrying `value`, and the transfer list
(`postMessage` is called without a second argument when the list is
empty, which is the same as passing an empty transfer list). -/
structure PostedExit where
  value : JSVal
  transferList : List JSVal

/-- `exitFunction` from `thread-manager.js`: builds the
`thread-terminate` message and the transfer list collected by
`checkForTransferable`. -/
def exitFunction (value : JSVal) : PostedExit :=
  { value := value, transferList := checkForTransferable value }

/-! ## The shared store (`sharedMemory`) -/

/-- The coordinator's shared-memory object: an insertion-ordered list of
string-keyed properties (a JavaScript object holding the replicated
key/value state). -/
abbrev Store := List (String × JSVal)

/-- Property assignment `store[k] = v`: overwrite the entry for `k` if
present, otherwise append a new entry. -/
def setStore : Store → String → JSVal → Store
  | [], k, v => [(k, v)]
  | (k', v') :: rest, k, v =>
    if k' = k then (k, v) :: rest else (k', v') :: setStore rest k v

/-- Property read `store[k]`. -/
def lookupStore : Store → String → Option JSVal
  | [], _ => none
  | (k', v') :: rest, k => if k' = k then some v' else lookupStore rest k

/-! ## `WebThread` (`src/web-thread.js`)

A `WebThread` wraps one worker.  Its constructor stores the id, sets
`result` to `null`, posts the `shared-memory-id` message into the
context, and registers a listener that reacts to the in-band
`thread-terminate` message.  `terminate()` builds a fresh `terminate`
event carrying the current `result`, dispatches it, and then kills the
underlying worker (`super.terminate()`). -/

/-- Coordinator-side state of one `WebThread`.  `firedTerminate`
records, in order, the result payloads of the `terminate` events this
handle has dispatched; `workerAlive` tracks the underlying worker
(killed by `super.terminate()`). -/
structure WebThread where
  id : Nat
  result : Option JSVal
  firedTerminate : List (Option JSVal)
  workerAlive : Bool

/-- The `WebThread` constructor state: `result = null`, no `terminate`
event dispatched yet, worker alive. -/
def WebThread.mk0 (id : Nat) : WebThread :=
  { id := id, result := none, firedTerminate := [], workerAlive := true }

/-- `WebThread.terminate()`: unconditionally dispatches a new
`terminate` event carrying `this.result`, then calls
`super.terminate()`.  There is no guard against repeated calls. -/
def WebThread.terminate (w : WebThread) : WebThread :=
  { w with firedTerminate := w.firedTerminate ++ [w.result], workerAlive := false }

/-- A message arriving on a `WebThread`'s channel from the worker. -/
inductive WorkerMsg where
  | threadTerminate (value : JSVal)
  | otherMsg

/-- The message listener registered in the `WebThread` constructor:
on a `thread-terminate` message it stops propagation, stores the carried
value in `result`, and calls `this.terminate()`; any other message is
left alone. -/
def WebThread.onMessage (w : WebThread) : WorkerMsg → WebThread
  | .threadTerminate v => WebThread.terminate { w with result := some v }
  | .otherMsg => w

/-! ## Scheduler state (`src/thread-manager.js` module-level variables) -/

/-- A task passed to `ThreadManager.run`.  `tid` is the identifier the
opaque `generateUUID` collaborator will assign to its thread
(unique labels); `callable` is whether
`typeof threadFunction === "function"` (so `loadThreadUrl` yields a
URL); `spawnOk` is whether `new WebThread(url, id)` succeeds (context
creation can throw, caught by `createThread`'s empty `catch`). -/
structure ThreadTask where
  tid : Nat
  callable : Bool
  spawnOk : Bool

/-- A running thread as the scheduler sees it: its id and the
shared-memory snapshot it was sent at launch (`shared-memory-init`). -/
structure Handle where
  tid : Nat
  initSnapshot : Store

/-- The module-level mutable state of `thread-manager.js`:
`threadLimit`, `sharedMemory`, `threadQueue` and `threadRunning`. -/
structure SchedState where
  limit : Nat
  store : Store
  queue : List ThreadTask
  running : List Handle

/-- The state at module load: `threadLimit = 4`, empty shared memory,
empty queue, nothing running. -/
def initState : SchedState :=
  { limit := 4, store := [], queue := [], running := [] }

/-- Observable events of a scheduler operation, in program order:
messages posted into worker contexts, settlements of `run` promises,
`terminate` events dispatched by handles, and entries into the
queue-drain routine `updateThreadQueue`. -/
inductive Evt where
  | postMemId (tid : Nat)
  | postMemInit (tid : Nat) (snapshot : Store)
  | postMemUpdate (tid : Nat) (key : String) (value : JSVal)
  | terminateEvent (tid : Nat)
  | resolve (tid : Nat)
  | reject
  | drainAttempt

/-! ## Scheduler operations (`thread-manager.js`) -/

/-- `createThread(threadFunction)`: `loadThreadUrl` yields a URL only
when `threadFunction` is a function; then `new WebThread(url, uuid)` may
throw (caught by the empty `catch`, yielding `undefined`).  On success
the constructor posts `shared-memory-id`, the scheduler registers the
`terminate`/`message` listeners, posts `shared-memory-init` with the
current `sharedMemory`, pushes the thread onto `threadRunning` and
returns it. -/
def createThread (s : SchedState) (t : ThreadTask) :
    SchedState × List Evt × Option Handle :=
  if t.callable then
    if t.spawnOk then
      let h : Handle := { tid := t.tid, initSnapshot := s.store }
      ({ s with running := s.running ++ [h] },
        [.postMemId t.tid, .postMemInit t.tid s.store], some h)
    else (s, [], none)
  else (s, [], none)

/-- The `while (threadQueue.length > 0 && threadRunning.length <
threadLimit)` loop of `updateThreadQueue`, run on a state whose `queue`
field equals the first argument.  Each iteration shifts the head task
and calls `executeThread` on it: on successful spawn the `createThread`
messages and the promise resolution happen before the loop continues; on
failure `executeThread` re-enters `updateThreadQueue` — which drains the
remaining queue to the same fixpoint this loop would reach — and then
rejects, after which the outer loop finds nothing left to do.  The
nested re-entry is therefore flattened into a single recursion: a failed
head task is dropped and rejected (after the continued drain's events)
and the loop goes on with the rest. -/
def drainLoop : List ThreadTask → SchedState → SchedState × List Evt
  | [], s => (s, [])
  | t :: rest, s =>
    if s.running.length < s.limit then
      if t.callable && t.spawnOk then
        let h : Handle := { tid := t.tid, initSnapshot := s.store }
        let step := drainLoop rest
          { s with queue := rest, running := s.running ++ [h] }
        (step.1,
          [.postMemId t.tid, .postMemInit t.tid s.store, .resolve t.tid]
            ++ step.2)
      else
        let step := drainLoop rest { s with queue := rest }
        (step.1, step.2 ++ [.reject])
    else (s, [])

/-- `updateThreadQueue()`: drain the queue while a slot is free. -/
def updateThreadQueue (s : SchedState) : SchedState × List Evt :=
  drainLoop s.queue s

/-- `executeThread(threadFunction, resolve, reject)`: try to create the
thread; resolve the `run` promise with it on success, otherwise call
`updateThreadQueue()` and then reject.  (`createThread` returns the
state unchanged on failure.) -/
def executeThread (s : SchedState) (t : ThreadTask) : SchedState × List Evt :=
  match createThread s t with
  | (s', evts, some h) => (s', evts ++ [.resolve h.tid])
  | (_, _, none) =>
    let drained := updateThreadQueue s
    (drained.1, [.drainAttempt] ++ drained.2 ++ [.reject])

/-- `ThreadManager.run(threadFunction)`: launch immediately when
`threadRunning.length < threadLimit`, else push
`[threadFunction, resolve, reject]` onto `threadQueue` (the promise
stays pending, producing no settlement event). -/
def run (s : SchedState) (t : ThreadTask) : SchedState × List Evt :=
  if s.running.length < s.limit then executeThread s t
  else ({ s with queue := s.queue ++ [t] }, [])

/-- `threadRunning.indexOf(thread)` / `splice(index, 1)`: remove the
first occurrence of the thread (identified by its unique id). -/
def removeFirstByTid : List Handle → Nat → List Handle
  | [], _ => []
  | h :: rest, tid => if h.tid = tid then rest else h :: removeFirstByTid rest tid

/-- `threadTerminated(thread)`: the scheduler's `terminate`-event
listener.  If the thread is still in `threadRunning` (`indexOf >= 0`)
it is spliced out and `updateThreadQueue()` runs; otherwise nothing
happens. -/
def threadTerminated (s : SchedState) (tid : Nat) : SchedState × List Evt :=
  if s.running.any (fun h => h.tid = tid) then
    let drained := updateThreadQueue
      { s with running := removeFirstByTid s.running tid }
    (drained.1, [.drainAttempt] ++ drained.2)
  else (s, [])

/-- One call of `WebThread.terminate()` on a thread, as the scheduler
observes it: the `terminate` event is dispatched (carrying the stored
result) and the scheduler's listener `threadTerminated` runs during the
dispatch.  This is the path taken both by self-initiated termination
(the `thread-terminate` message listener calls `this.terminate()`) and
by a forced `terminate()`/`purge()` call. -/
def terminateThread (s : SchedState) (tid : Nat) : SchedState × List Evt :=
  let handled := threadTerminated s tid
  (handled.1, .terminateEvent tid :: handled.2)

/-- `updateSharedMemory(property, value)`: overwrite the coordinator's
`sharedMemory` entry and post a `shared-memory-update` message to every
thread of `threadRunning`, in list order. -/
def updateSharedMemory (s : SchedState) (k : String) (v : JSVal) :
    SchedState × List Evt :=
  ({ s with store := setStore s.store k v },
    s.running.map (fun h => .postMemUpdate h.tid k v))

/-- The `message` listener `createThread` registers on each thread: a
`shared-memory-updated` report from a running thread (the originator,
identified by `originTid`) stops propagation and calls
`updateSharedMemory` — which posts to every running thread, with no
originator exclusion (the listener never consults which thread the
report came from). -/
def onSharedMemoryUpdated (s : SchedState) (_originTid : Nat)
    (k : String) (v : JSVal) : SchedState × List Evt :=
  updateSharedMemory s k v

/-- `set limit(value)`: `value = Number(value)`; non-numeric input gives
`NaN` (modelled as `none`) and is ignored, as is any value `< 1`;
otherwise `threadLimit = Math.round(value)` (the identity on the integer
inputs modelled here) and `updateThreadQueue()` runs. -/
def setLimit (s : SchedState) (v : Option Int) : SchedState × List Evt :=
  match v with
  | none => (s, [])
  | some n =>
    if 1 ≤ n then
      let drained := updateThreadQueue { s with limit := n.toNat }
      (drained.1, .drainAttempt :: drained.2)
    else (s, [])

/-- The `for (let thread of threads)` loop of `purge`: call
`terminate()` on each thread of the snapshot in order, accumulating the
events. -/
def purgeLoop : List Handle → SchedState × List Evt → SchedState × List Evt
  | [], acc => acc
  | h :: rest, acc =>
    let step := terminateThread acc.1 h.tid
    purgeLoop rest (step.1, acc.2 ++ step.2)

/-- `ThreadManager.purge()`: snapshot `threadRunning`, set
`threadQueue.length = 0`, then call `terminate()` on each thread of the
snapshot in order (the `for (let thread of threads)` loop is
`purgeLoop`; each call dispatches the thread's `terminate` event and
`threadTerminated` removes it). -/
def purge (s : SchedState) : SchedState × List Evt :=
  purgeLoop s.running ({ s with queue := ([] : List ThreadTask) }, [])

/-! ## Interaction traces -/

/-- One coordinator-side atomic interaction: a `run` call, a thread
reporting termination (self exit via the `thread-terminate` message or
an external `terminate()` call), a `purge`, a `limit` assignment, a
coordinator write through the `shared` proxy, or a running thread
reporting a shared-memory write. -/
inductive SchedOp where
  | runOp (t : ThreadTask)
  | finishOp (tid : Nat)
  | purgeOp
  | limitOp (v : Option Int)
  | coordWriteOp (k : String) (v : JSVal)
  | handleWriteOp (originTid : Nat) (k : String) (v : JSVal)

/-- Whether an operation is a `limit` assignment. -/
def SchedOp.isLimitOp : SchedOp → Bool
  | .limitOp _ => true
  | _ => false

/-- Apply one interaction to the scheduler state. -/
def applyOp (s : SchedState) : SchedOp → SchedState × List Evt
  | .runOp t => run s t
  | .finishOp tid => terminateThread s tid
  | .purgeOp => purge s
  | .limitOp v => setLimit s v
  | .coordWriteOp k v => updateSharedMemory s k v
  | .handleWriteOp o k v => onSharedMemoryUpdated s o k v

/-- Apply a list of interactions in order (events discarded). -/
def applyOps (s : SchedState) (ops : List SchedOp) : SchedState :=
  ops.foldl (fun s op => (applyOp s op).1) s

/-- States the module can actually be in: everything reachable from the
load-time state by coordinator-side interactions. -/
inductive Reachable : SchedState → Prop where
  | base : Reachable initState
  | step (s : SchedState) (op : SchedOp) : Reachable s → Reachable (applyOp s op).1

/-- Whether an event is a `shared-memory-update` message posted to the
thread with the given id. -/
def isUpdateMsgTo (tid : Nat) : Evt → Bool
  | .postMemUpdate r _ _ => r == tid
  | _ => false

/-- Whether an event is the dispatch of the `terminate` event of the
thread with the given id. -/
def isTermEventFor (tid : Nat) : Evt → Bool
  | .terminateEvent t => t == tid
  | _ => false

/-- Whether an event settles a `run` promise (resolution or
rejection). -/
def isSettlement : Evt → Bool
  | .resolve _ => true
  | .reject => true
  | _ => false

/-- The event trace `purge` produces on a running list: each thread
dispatches its `terminate` event, followed by the (empty) queue-drain
attempt of `threadTerminated`. -/
def purgeEvts : List Handle → List Evt
  | [] => []
  | h :: rest => .terminateEvent h.tid :: .drainAttempt :: purgeEvts rest

/-- The queue only holds tasks while every slot is taken: `run` enqueues
only when `threadRunning.length < threadLimit` fails, and every drain
stops only on an empty queue or a full running list. -/
def queueBlocked (s : SchedState) : Prop :=
  s.queue ≠ [] → s.limit ≤ s.running.length

/-! ## Lemmas -/

mutual
/-- Because `isTransferable` always returns `undefined`, the walk never
pushes anything: the transfer list is empty for every value. -/
theorem checkForTransferable_eq_nil (obj : JSVal) :
    checkForTransferable obj = [] := by
  match obj with
  | .object kvs =>
    rw [checkForTransferable]
    simp only [isTransferable, jsTruthy, Bool.false_eq_true, if_false]
    exact checkForTransferableProps_eq_nil kvs
  | .primitive n => simp [checkForTransferable, isTransferable, jsTruthy]
  | .arrayBuffer b => simp [checkForTransferable, isTransferable, jsTruthy]
  | .messagePort p => simp [checkForTransferable, isTransferable, jsTruthy]
  | .imageBitmap p => simp [checkForTransferable, isTransferable, jsTruthy]
  | .offscreenCanvas p => simp [checkForTransferable, isTransferable, jsTruthy]
  | .jsNull => simp [checkForTransferable, isTransferable, jsTruthy]

theorem checkForTransferableProps_eq_nil (kvs : List (String × JSVal)) :
    checkForTransferableProps kvs = [] := by
  match kvs with
  | [] => rw [checkForTransferableProps]
  | (k, v) :: rest =>
    rw [checkForTransferableProps, checkForTransferable_eq_nil v,
      checkForTransferableProps_eq_nil rest]
    rfl
end



theorem drainLoop_limit (q : List ThreadTask) :
    ∀ s : SchedState, ((drainLoop q s).1).limit = s.limit := by
  induction q with
  | nil => intro s; rfl
  | cons t rest ih =>
    intro s
    simp only [drainLoop]
    split_ifs with h1 h2
    · simpa using ih _
    · simpa using ih _
    · rfl

theorem drainLoop_store (q : List ThreadTask) :
    ∀ s : SchedState, ((drainLoop q s).1).store = s.store := by
  induction q with
  | nil => intro s; rfl
  | cons t rest ih =>
    intro s
    simp only [drainLoop]
    split_ifs with h1 h2
    · simpa using ih _
    · simpa using ih _
    · rfl

theorem drainLoop_running_le (q : List ThreadTask) :
    ∀ s : SchedState, s.running.length ≤ s.limit →
      ((drainLoop q s).1).running.length ≤ ((drainLoop q s).1).limit := by
  induction q with
  | nil => intro s hs; exact hs
  | cons t rest ih =>
    intro s hs
    simp only [drainLoop]
    split_ifs with h1 h2
    · refine ih _ ?_
      simpa using h1
    · exact ih _ hs
    · exact hs

theorem drainLoop_queue_post (q : List ThreadTask) :
    ∀ s : SchedState, s.queue = q →
      ((drainLoop q s).1).queue = [] ∨
        ((drainLoop q s).1).limit ≤ ((drainLoop q s).1).running.length := by
  induction q with
  | nil => intro s hq; exact Or.inl hq
  | cons t rest ih =>
    intro s hq
    simp only [drainLoop]
    split_ifs with h1 h2
    · exact ih _ rfl
    · exact ih _ rfl
    · exact Or.inr (Nat.le_of_not_lt h1)

/-- Characterization of the queue drain on spawnable tasks: it pops and
launches exactly `min (queue length) (limit - running)` head tasks, in
queue order, each handle seeded with the store at drain time. -/
theorem drainLoop_good (q : List ThreadTask) :
    ∀ s : SchedState, (∀ t ∈ q, t.callable = true ∧ t.spawnOk = true) →
      s.queue = q →
      (drainLoop q s).1 =
        { s with
          queue := q.drop (min q.length (s.limit - s.running.length)),
          running := s.running ++
            (q.take (min q.length (s.limit - s.running.length))).map
              (fun t => { tid := t.tid, initSnapshot := s.store }) } := by
  induction q with
  | nil =>
    intro s _ hq
    simp only [drainLoop, List.length_nil, Nat.zero_min, List.drop_zero,
      List.take_zero, List.map_nil, List.append_nil]
    rw [← hq]
  | cons t rest ih =>
    intro s hgood hq
    simp only [drainLoop]
    split_ifs with h1 h2
    · have hrest : ∀ t' ∈ rest, t'.callable = true ∧ t'.spawnOk = true :=
        fun t' ht' => hgood t' (List.mem_cons_of_mem _ ht')
      rw [ih _ hrest rfl]
      have hlen :
          (s.running ++ [({ tid := t.tid, initSnapshot := s.store } : Handle)]).length
            = s.running.length + 1 := by
        simp
      have hk : min (t :: rest).length (s.limit - s.running.length) =
          (min rest.length (s.limit - (s.running.length + 1))) + 1 := by
        simp only [List.length_cons]
        omega
      rw [hk]
      simp only [hlen, List.take_succ_cons, List.drop_succ_cons, List.map_cons,
        List.append_assoc, List.singleton_append]
    · exact absurd (by
        have := hgood t (List.mem_cons_self t rest)
        simp [this.1, this.2]) h2
    · have hk : min (t :: rest).length (s.limit - s.running.length) = 0 := by
        simp only [List.length_cons]
        omega
      rw [hk]
      simp only [List.drop_zero, List.take_zero, List.map_nil, List.append_nil]
      rw [← hq]

/-! ## Lemmas about termination handling and `purge` -/

theorem removeFirstByTid_length_le (hs : List Handle) (tid : Nat) :
    (removeFirstByTid hs tid).length ≤ hs.length := by
  induction hs with
  | nil => simp [removeFirstByTid]
  | cons h rest ih =>
    simp only [removeFirstByTid]
    split_ifs with h1
    · simp
    · simp only [List.length_cons]
      omega

/-- `terminate()` on the head of the running list with an empty queue:
the thread is removed, the drain attempt finds nothing to do, and the
trace is its `terminate` event followed by the drain entry. -/
theorem terminateThread_head (s : SchedState) (h : Handle) (rest : List Handle)
    (hq : s.queue = []) (hr : s.running = h :: rest) :
    terminateThread s h.tid =
      ({ s with running := rest }, [.terminateEvent h.tid, .drainAttempt]) := by
  simp only [terminateThread, threadTerminated, updateThreadQueue, hq, hr]
  simp [drainLoop, removeFirstByTid]

theorem purgeLoop_spec (ts : List Handle) :
    ∀ (s : SchedState) (es : List Evt), s.queue = [] → s.running = ts →
      purgeLoop ts (s, es) = ({ s with running := [] }, es ++ purgeEvts ts) := by
  induction ts with
  | nil =>
    intro s es hq hr
    obtain ⟨L, st, qu, ru⟩ := s
    simp only at hr
    subst hr
    simp [purgeLoop, purgeEvts]
  | cons h rest ih =>
    intro s es hq hr
    simp only [purgeLoop, terminateThread_head s h rest hq hr]
    rw [ih { s with running := rest } _ hq rfl]
    simp [purgeEvts]

/-- `purge` leaves both lists empty and produces exactly the
`terminate`-event/drain trace of the previously running threads. -/
theorem purge_spec (s : SchedState) :
    purge s = ({ s with queue := [], running := [] }, purgeEvts s.running) := by
  simp only [purge]
  rw [purgeLoop_spec s.running { s with queue := [] } [] rfl rfl]
  simp

theorem purgeEvts_filter_term (tid : Nat) (ts : List Handle) :
    ((purgeEvts ts).filter (isTermEventFor tid)).length =
      (ts.filter (fun h => h.tid == tid)).length := by
  induction ts with
  | nil => simp [purgeEvts]
  | cons h rest ih =>
    simp only [purgeEvts, List.filter]
    cases hbe : (h.tid == tid) with
    | true => simp [isTermEventFor, hbe, ih]
    | false => simp [isTermEventFor, hbe, ih]

theorem purgeEvts_no_settlement (ts : List Handle) :
    (purgeEvts ts).filter isSettlement = [] := by
  induction ts with
  | nil => simp [purgeEvts]
  | cons h rest ih => simp [purgeEvts, isSettlement, ih]

/-! ## Invariant preservation -/

/-- Case analysis of `executeThread`: on a callable, spawnable task the
thread is created (id message, init snapshot, push, resolve); otherwise
the queue drain is attempted and the promise rejected. -/
theorem executeThread_cases (s : SchedState) (t : ThreadTask) :
    (t.callable = true ∧ t.spawnOk = true ∧
      executeThread s t =
        ({ s with running := s.running ++ [{ tid := t.tid, initSnapshot := s.store }] },
          [.postMemId t.tid, .postMemInit t.tid s.store, .resolve t.tid])) ∨
    ((t.callable = false ∨ t.spawnOk = false) ∧
      executeThread s t =
        ((updateThreadQueue s).1,
          .drainAttempt :: ((updateThreadQueue s).2 ++ [.reject]))) := by
  cases hc : t.callable <;> cases hk : t.spawnOk <;>
    simp [executeThread, createThread, hc, hk]

/-- A single `terminate()` observation keeps the running count within
the limit and does not change the limit or empty the queue invariant. -/
theorem terminateThread_bound (s : SchedState) (tid : Nat)
    (hP : s.running.length ≤ s.limit) :
    (terminateThread s tid).1.running.length ≤ (terminateThread s tid).1.limit ∧
      (terminateThread s tid).1.limit = s.limit := by
  simp only [terminateThread, threadTerminated]
  split_ifs with h1
  · constructor
    · refine drainLoop_running_le _ _ ?_
      exact le_trans (removeFirstByTid_length_le _ _) hP
    · exact drainLoop_limit _ _
  · exact ⟨hP, rfl⟩

theorem purgeLoop_bound (ts : List Handle) :
    ∀ (s : SchedState) (es : List Evt), s.running.length ≤ s.limit →
      (purgeLoop ts (s, es)).1.running.length ≤ (purgeLoop ts (s, es)).1.limit ∧
        (purgeLoop ts (s, es)).1.limit = s.limit := by
  induction ts with
  | nil => intro s es hP; exact ⟨hP, rfl⟩
  | cons h rest ih =>
    intro s es hP
    simp only [purgeLoop]
    obtain ⟨h1, h2⟩ := terminateThread_bound s h.tid hP
    obtain ⟨h3, h4⟩ := ih (terminateThread s h.tid).1 _ (h2 ▸ h1)
    exact ⟨h3, h4.trans h2⟩

/-- Every interaction other than a `limit` assignment keeps the running
count within the (unchanged) limit: each launch path checks
`threadRunning.length < threadLimit` first. -/
theorem applyOp_nonLimit_bound (s : SchedState) (op : SchedOp)
    (hop : op.isLimitOp = false) (hP : s.running.length ≤ s.limit) :
    (applyOp s op).1.running.length ≤ (applyOp s op).1.limit ∧
      (applyOp s op).1.limit = s.limit := by
  cases op with
  | runOp t =>
    simp only [applyOp, run]
    split_ifs with h1
    · rcases executeThread_cases s t with ⟨_, _, heq⟩ | ⟨_, heq⟩
      · rw [heq]
        constructor
        · simpa using h1
        · rfl
      · rw [heq]
        exact ⟨drainLoop_running_le _ _ hP, drainLoop_limit _ _⟩
    · exact ⟨hP, rfl⟩
  | finishOp tid => exact terminateThread_bound s tid hP
  | purgeOp =>
    simp only [applyOp, purge]
    exact purgeLoop_bound s.running { s with queue := [] } [] hP
  | limitOp v => simp [SchedOp.isLimitOp] at hop
  | coordWriteOp k v => exact ⟨hP, rfl⟩
  | handleWriteOp o k v => exact ⟨hP, rfl⟩

theorem applyOps_nonLimit_bound (ops : List SchedOp) :
    ∀ s : SchedState, (∀ op ∈ ops, op.isLimitOp = false) →
      s.running.length ≤ s.limit →
      (applyOps s ops).running.length ≤ (applyOps s ops).limit ∧
        (applyOps s ops).limit = s.limit := by
  induction ops with
  | nil => intro s _ hP; exact ⟨hP, rfl⟩
  | cons op rest ih =>
    intro s hops hP
    have hop : op.isLimitOp = false := hops op (List.mem_cons_self op rest)
    have hrest : ∀ o ∈ rest, o.isLimitOp = false :=
      fun o ho => hops o (List.mem_cons_of_mem _ ho)
    obtain ⟨h1, h2⟩ := applyOp_nonLimit_bound s op hop hP
    obtain ⟨h3, h4⟩ := ih (applyOp s op).1 hrest (h2 ▸ h1)
    exact ⟨h3, h4.trans h2⟩

theorem updateThreadQueue_post (s : SchedState) :
    (updateThreadQueue s).1.queue = [] ∨
      (updateThreadQueue s).1.limit ≤ (updateThreadQueue s).1.running.length :=
  drainLoop_queue_post s.queue s rfl

theorem terminateThread_queueBlocked (s : SchedState) (tid : Nat)
    (_hQ : queueBlocked s) : queueBlocked (terminateThread s tid).1 := by
  simp only [terminateThread, threadTerminated]
  split_ifs with h1
  · intro hne
    rcases updateThreadQueue_post { s with running := removeFirstByTid s.running tid } with
      hemp | hle
    · exact absurd hemp hne
    · exact hle
  · exact _hQ

theorem terminateThread_queue_nil (s : SchedState) (tid : Nat)
    (hq : s.queue = []) : (terminateThread s tid).1.queue = [] := by
  simp only [terminateThread, threadTerminated]
  split_ifs with h1
  · simp only [updateThreadQueue, hq]
    simp [drainLoop]
  · exact hq

theorem purgeLoop_queue_nil (ts : List Handle) :
    ∀ (s : SchedState) (es : List Evt), s.queue = [] →
      (purgeLoop ts (s, es)).1.queue = [] := by
  induction ts with
  | nil => intro s es hq; exact hq
  | cons h rest ih =>
    intro s es hq
    simp only [purgeLoop]
    exact ih _ _ (terminateThread_queue_nil s h.tid hq)

/-- The queue-blocked invariant is preserved by every interaction. -/
theorem applyOp_queueBlocked (s : SchedState) (op : SchedOp)
    (hQ : queueBlocked s) : queueBlocked (applyOp s op).1 := by
  cases op with
  | runOp t =>
    simp only [applyOp, run]
    split_ifs with h1
    · rcases executeThread_cases s t with ⟨_, _, heq⟩ | ⟨_, heq⟩
      · rw [heq]
        intro hne
        exact le_trans (hQ hne) (by simp)
      · rw [heq]
        intro hne
        rcases updateThreadQueue_post s with hemp | hle
        · exact absurd hemp hne
        · exact hle
    · intro _
      exact Nat.le_of_not_lt h1
  | finishOp tid => exact terminateThread_queueBlocked s tid hQ
  | purgeOp =>
    simp only [applyOp, purge]
    intro hne
    exact absurd (purgeLoop_queue_nil s.running { s with queue := [] } [] rfl) hne
  | limitOp v =>
    cases v with
    | none => exact hQ
    | some n =>
      simp only [applyOp, setLimit]
      split_ifs with h1
      · intro hne
        rcases updateThreadQueue_post { s with limit := n.toNat } with hemp | hle
        · exact absurd hemp hne
        · exact hle
      · exact hQ
  | coordWriteOp k v => exact hQ
  | handleWriteOp o k v => exact hQ

/-- Every reachable scheduler state satisfies the queue-blocked
invariant: a free slot implies an empty queue. -/
theorem reachable_queueBlocked (s : SchedState) (hs : Reachable s) :
    queueBlocked s := by
  induction hs with
  | base => intro h; exact absurd rfl h
  | step s' op _ ih => exact applyOp_queueBlocked s' op ih

/-! ## Claims -/

/-- C1, counterexample: with threads `1` and `2` running, a shared-store
write `("greetings", 5)` reported by thread `1` is fanned out to
thread `1` itself as well — `updateSharedMemory` posts
`shared-memory-update` to every member of `threadRunning` and the
listener never excludes the originator.  This refutes the claim that the
update is not sent back to the originating handle. -/
theorem C1_counterexample :
    ((onSharedMemoryUpdated
        { limit := 4, store := [],
          queue := [],
          running := [{ tid := 1, initSnapshot := [] },
            { tid := 2, initSnapshot := [] }] }
        1 "greetings" (.primitive 5)).2).any (isUpdateMsgTo 1) = true := by
  rfl

/-- C1, amended: when a running handle reports a local shared-store
write `(key, value)`, the Scheduler updates its own store replica and
fans the update out to every running handle, the originating handle
included. -/
theorem C1_fanout_includes_origin (s : SchedState) (origin : Nat)
    (k : String) (v : JSVal) :
    (onSharedMemoryUpdated s origin k v).1.store = setStore s.store k v ∧
    (onSharedMemoryUpdated s origin k v).1.running = s.running ∧
    (onSharedMemoryUpdated s origin k v).2 =
      s.running.map (fun h => .postMemUpdate h.tid k v) ∧
    (origin ∈ s.running.map Handle.tid →
      ((onSharedMemoryUpdated s origin k v).2).any (isUpdateMsgTo origin) = true) := by
  refine ⟨rfl, rfl, rfl, fun hmem => ?_⟩
  rcases List.mem_map.mp hmem with ⟨h, hh, hht⟩
  refine List.any_eq_true.mpr ⟨Evt.postMemUpdate h.tid k v, ?_, ?_⟩
  · exact List.mem_map_of_mem _ hh
  · simp [isUpdateMsgTo, hht]

/-- C1, witness for the amended claim at a concrete input. -/
theorem C1_fanout_witness :
    (1 ∈ ([{ tid := 1, initSnapshot := [] },
        { tid := 2, initSnapshot := [] }] : List Handle).map Handle.tid) ∧
    ((onSharedMemoryUpdated
        { limit := 4, store := [], queue := [],
          running := [{ tid := 1, initSnapshot := [] },
            { tid := 2, initSnapshot := [] }] }
        1 "k" (.primitive 0)).2).any (isUpdateMsgTo 1) = true :=
  ⟨by decide,
    (C1_fanout_includes_origin
      { limit := 4, store := [], queue := [],
        running := [{ tid := 1, initSnapshot := [] },
          { tid := 2, initSnapshot := [] }] }
      1 "k" (.primitive 0)).2.2.2 (by decide)⟩

/-- C2, counterexample: a second `terminate()` call on an
already-terminated handle dispatches the `terminate` event again —
`WebThread.terminate` has no guard, so forcing termination twice fires
two events, refuting the exactly-once/no-op claim. -/
theorem C2_counterexample :
    ((WebThread.mk0 7).terminate.terminate).firedTerminate.length = 2 ∧
    ((WebThread.mk0 7).terminate).firedTerminate.length = 1 :=
  ⟨rfl, rfl⟩

/-- C2, amended: every `terminate()` call dispatches exactly one
`terminate` event carrying the stored result; self-initiated termination
(the in-band `thread-terminate` message) stores the carried value and
calls `terminate()` once, so it fires exactly one event — but
`terminate()` is not idempotent: a repeated call fires the event
again. -/
theorem C2_terminate_fires_per_call (w : WebThread) (v : JSVal) :
    (WebThread.terminate w).firedTerminate = w.firedTerminate ++ [w.result] ∧
    (WebThread.terminate w).workerAlive = false ∧
    (w.onMessage (.threadTerminate v)).firedTerminate =
      w.firedTerminate ++ [some v] ∧
    w.onMessage .otherMsg = w :=
  ⟨rfl, rfl, rfl, rfl⟩

/-- C3: evaluation at the failing input.  `exit` on a result value that
is a raw byte buffer (`new ArrayBuffer` holding bytes `[1, 2, 3]`)
produces an empty transfer list, so the buffer is structure-cloned
(copied), never moved: `isTransferable` contains no `return` statement
(it evaluates to `undefined`), and even the local `result` it computes
is false because the `&&`-chain requires membership in all four
transferable classes at once.  This contradicts `exitFunction`'s own
documentation and the claim. -/
theorem C3_transfer_list_always_empty :
    exitFunction (.arrayBuffer [1, 2, 3]) =
      { value := .arrayBuffer [1, 2, 3], transferList := [] } ∧
    isTransferable (.arrayBuffer [1, 2, 3]) = none ∧
    isTransferableLocalResult (.arrayBuffer [1, 2, 3]) = false := by
  refine ⟨?_, rfl, rfl⟩
  simp [exitFunction, checkForTransferable_eq_nil]

/-- C4: with the concurrency limit fixed at a positive `L` (no `limit`
assignment in the trace), the running list never exceeds `L` members:
both launch paths — immediate admission in `run` and the queue drain —
check `threadRunning.length < threadLimit` before launching. -/
theorem C4_running_never_exceeds_limit (L : Nat) (store : Store)
    (ops : List SchedOp) (_hL : 1 ≤ L)
    (hops : ∀ op ∈ ops, op.isLimitOp = false) :
    (applyOps { limit := L, store := store, queue := [], running := [] }
      ops).running.length ≤ L := by
  obtain ⟨h1, h2⟩ := applyOps_nonLimit_bound ops
    { limit := L, store := store, queue := [], running := [] } hops (by simp)
  have h2' : (applyOps { limit := L, store := store, queue := [], running := [] }
      ops).limit = L := h2
  omega

/-- C4, witness: limit 2, three submissions — at most 2 run. -/
theorem C4_witness :
    1 ≤ 2 ∧
    (∀ op ∈ ([.runOp { tid := 10, callable := true, spawnOk := true },
        .runOp { tid := 11, callable := true, spawnOk := true },
        .runOp { tid := 12, callable := true, spawnOk := true }] :
          List SchedOp), op.isLimitOp = false) ∧
    (applyOps { limit := 2, store := [], queue := [], running := [] }
      [.runOp { tid := 10, callable := true, spawnOk := true },
        .runOp { tid := 11, callable := true, spawnOk := true },
        .runOp { tid := 12, callable := true, spawnOk := true }]).running.length ≤ 2 :=
  ⟨by decide, by decide,
    C4_running_never_exceeds_limit 2 [] _ (by decide) (by decide)⟩

/-- C5: with a free slot, `run` launches immediately: the new thread
receives the `shared-memory-id` and `shared-memory-init` messages (the
snapshot is the coordinator's store at launch time, so every key written
before launch is present in the initial replica) and only then is the
promise resolved with the handle; with no free slot the task is appended
to the queue and the promise stays pending. -/
theorem C5_run_launch_or_queue (s s' : SchedState) (t t' : ThreadTask)
    (hfree : s.running.length < s.limit)
    (hc : t.callable = true) (hk : t.spawnOk = true)
    (hfull : ¬ s'.running.length < s'.limit) :
    run s t =
      ({ s with running := s.running ++
          [{ tid := t.tid, initSnapshot := s.store }] },
        [.postMemId t.tid, .postMemInit t.tid s.store, .resolve t.tid]) ∧
    (∀ k v, lookupStore s.store k = some v →
      lookupStore
        ({ tid := t.tid, initSnapshot := s.store } : Handle).initSnapshot k
        = some v) ∧
    run s' t' = ({ s' with queue := s'.queue ++ [t'] }, []) := by
  refine ⟨?_, fun k v hv => hv, ?_⟩
  · simp only [run, if_pos hfree]
    rcases executeThread_cases s t with ⟨_, _, heq⟩ | ⟨hbad, _⟩
    · exact heq
    · rcases hbad with hb | hb
      · rw [hc] at hb; cases hb
      · rw [hk] at hb; cases hb
  · simp [run, hfull]

/-- C5, witness: a fresh manager with one stored key launches a task
whose init snapshot carries that key. -/
theorem C5_witness :
    ({ limit := 4, store := [("greetings", .primitive 1)], queue := [],
       running := [] } : SchedState).running.length
        < ({ limit := 4, store := [("greetings", .primitive 1)], queue := [],
             running := [] } : SchedState).limit ∧
    run { limit := 4, store := [("greetings", .primitive 1)], queue := [],
          running := [] }
      { tid := 3, callable := true, spawnOk := true } =
      ({ limit := 4, store := [("greetings", .primitive 1)], queue := [],
         running := [{ tid := 3,
                       initSnapshot := [("greetings", .primitive 1)] }] },
        [.postMemId 3, .postMemInit 3 [("greetings", .primitive 1)],
          .resolve 3]) :=
  ⟨by decide,
    (C5_run_launch_or_queue
      { limit := 4, store := [("greetings", .primitive 1)], queue := [],
        running := [] }
      { limit := 0, store := [], queue := [], running := [] }
      { tid := 3, callable := true, spawnOk := true }
      { tid := 4, callable := true, spawnOk := true }
      (by decide) rfl rfl (by decide)).1⟩

/-- C6: the queue drain pops and launches head tasks in strict FIFO
order while the queue is non-empty and a slot is free — exactly
`min (queue length) (limit - running)` of them — and a valid `limit`
assignment performs precisely this drain on the state with the new
limit, so raising the limit launches queued tasks up to the new slack in
FIFO order. -/
theorem C6_drain_fifo (s s' : SchedState) (n : Int)
    (hgood : ∀ t ∈ s.queue, t.callable = true ∧ t.spawnOk = true)
    (hn : 1 ≤ n) :
    (updateThreadQueue s).1 =
      { s with
        queue := s.queue.drop (min s.queue.length (s.limit - s.running.length)),
        running := s.running ++
          (s.queue.take (min s.queue.length (s.limit - s.running.length))).map
            (fun t => { tid := t.tid, initSnapshot := s.store }) } ∧
    (setLimit s' (some n)).1 = (updateThreadQueue { s' with limit := n.toNat }).1 := by
  constructor
  · exact drainLoop_good s.queue s hgood rfl
  · simp [setLimit, hn]

/-- C6, witness: limit raised from 1 to 3 over a two-task queue launches
both queued tasks, in order. -/
theorem C6_witness :
    (∀ t ∈ ({ limit := 3, store := [],
              queue := [{ tid := 1, callable := true, spawnOk := true },
                        { tid := 2, callable := true, spawnOk := true }],
              running := [] } : SchedState).queue,
        t.callable = true ∧ t.spawnOk = true) ∧
    ((1 : Int) ≤ 3) ∧
    (updateThreadQueue
      { limit := 3, store := [],
        queue := [{ tid := 1, callable := true, spawnOk := true },
                  { tid := 2, callable := true, spawnOk := true }],
        running := [] }).1 =
      { limit := 3, store := [], queue := [],
        running := [{ tid := 1, initSnapshot := [] },
                    { tid := 2, initSnapshot := [] }] } ∧
    (setLimit
      { limit := 1, store := [],
        queue := [{ tid := 1, callable := true, spawnOk := true },
                  { tid := 2, callable := true, spawnOk := true }],
        running := [] } (some 3)).1 =
      (updateThreadQueue
        { limit := 3, store := [],
          queue := [{ tid := 1, callable := true, spawnOk := true },
                    { tid := 2, callable := true, spawnOk := true }],
          running := [] }).1 :=
  ⟨by decide, by decide,
    (C6_drain_fifo
      { limit := 3, store := [],
        queue := [{ tid := 1, callable := true, spawnOk := true },
                  { tid := 2, callable := true, spawnOk := true }],
        running := [] }
      { limit := 1, store := [],
        queue := [{ tid := 1, callable := true, spawnOk := true },
                  { tid := 2, callable := true, spawnOk := true }],
        running := [] }
      3 (by decide) (by decide)).1,
    (C6_drain_fifo
      { limit := 3, store := [],
        queue := [{ tid := 1, callable := true, spawnOk := true },
                  { tid := 2, callable := true, spawnOk := true }],
        running := [] }
      { limit := 1, store := [],
        queue := [{ tid := 1, callable := true, spawnOk := true },
                  { tid := 2, callable := true, spawnOk := true }],
        running := [] }
      3 (by decide) (by decide)).2⟩

/-- C7: when spawning fails (non-callable task or a throwing context
constructor), `run` with a free slot produces no uncaught fault: the
failure is absorbed and the promise is rejected, with the queue-drain
attempt triggered before the rejection (the trace is the drain entry,
then the drain's own events, then the rejection); and the drain itself
steps over a failing head task and goes on with the rest of the queue,
so one failing task does not stall the queued ones. -/
theorem C7_spawn_failure (s : SchedState) (t head : ThreadTask)
    (rest : List ThreadTask)
    (hfree : s.running.length < s.limit)
    (hbad : t.callable = false ∨ t.spawnOk = false)
    (hq : s.queue = head :: rest)
    (hheadbad : (head.callable && head.spawnOk) = false) :
    run s t =
      ((updateThreadQueue s).1,
        .drainAttempt :: ((updateThreadQueue s).2 ++ [.reject])) ∧
    updateThreadQueue s =
      ((drainLoop rest { s with queue := rest }).1,
        (drainLoop rest { s with queue := rest }).2 ++ [.reject]) := by
  constructor
  · simp only [run, if_pos hfree]
    rcases executeThread_cases s t with ⟨hc, hk, _⟩ | ⟨_, heq⟩
    · rcases hbad with hb | hb
      · rw [hc] at hb; cases hb
      · rw [hk] at hb; cases hb
    · exact heq
  · simp only [updateThreadQueue, hq, drainLoop, hheadbad, if_pos hfree]
    simp

/-- C7, witness: a non-callable submission with a free slot and a
non-callable task already queued. -/
theorem C7_witness :
    (({ limit := 4, store := [],
        queue := [{ tid := 9, callable := false, spawnOk := true }],
        running := [] } : SchedState).running.length
      < ({ limit := 4, store := [],
           queue := [{ tid := 9, callable := false, spawnOk := true }],
           running := [] } : SchedState).limit) ∧
    run { limit := 4, store := [],
          queue := [{ tid := 9, callable := false, spawnOk := true }],
          running := [] }
        { tid := 8, callable := false, spawnOk := true } =
      ((updateThreadQueue
          { limit := 4, store := [],
            queue := [{ tid := 9, callable := false, spawnOk := true }],
            running := [] }).1,
        .drainAttempt ::
          ((updateThreadQueue
            { limit := 4, store := [],
              queue := [{ tid := 9, callable := false, spawnOk := true }],
              running := [] }).2 ++ [.reject])) :=
  ⟨by decide,
    (C7_spawn_failure
      { limit := 4, store := [],
        queue := [{ tid := 9, callable := false, spawnOk := true }],
        running := [] }
      { tid := 8, callable := false, spawnOk := true }
      { tid := 9, callable := false, spawnOk := true } []
      (by decide) (Or.inl rfl) rfl rfl).1⟩

/-- C8: `purge` empties the queue and terminates every running handle:
afterwards both lists are empty, the trace settles no pending promise
(queued promises are abandoned), and for every id the number of
dispatched `terminate` events equals the number of running handles that
carried it — each previously running handle fires exactly once, through
the same `threadTerminated` removal path as natural termination. -/
theorem C8_purge_empties_and_fires_once (s : SchedState) :
    (purge s).1.running = [] ∧
    (purge s).1.queue = [] ∧
    (∀ tid, (((purge s).2).filter (isTermEventFor tid)).length =
      (s.running.filter (fun h => h.tid == tid)).length) ∧
    ((purge s).2).filter isSettlement = [] := by
  rw [purge_spec]
  exact ⟨rfl, rfl,
    fun tid => purgeEvts_filter_term tid s.running,
    purgeEvts_no_settlement s.running⟩

/-- C9: a non-numeric (`NaN`) or non-positive `limit` assignment is
silently ignored — no exception, state (and so the read-back limit)
unchanged — while a positive integer assignment updates `threadLimit`
and immediately attempts a queue drain. -/
theorem C9_setLimit_validation (s : SchedState) (m n : Int)
    (hm : m < 1) (hn : 1 ≤ n) :
    setLimit s none = (s, []) ∧
    setLimit s (some m) = (s, []) ∧
    (setLimit s (some n)).1.limit = n.toNat ∧
    (setLimit s (some n)).1 =
      (updateThreadQueue { s with limit := n.toNat }).1 ∧
    (setLimit s (some n)).2 =
      .drainAttempt :: (updateThreadQueue { s with limit := n.toNat }).2 := by
  refine ⟨rfl, ?_, ?_, ?_, ?_⟩
  · simp [setLimit, Int.not_le.mpr hm]
  · simp only [setLimit, if_pos hn]
    exact drainLoop_limit _ _
  · simp [setLimit, hn]
  · simp [setLimit, hn]

/-- C9, witness: `limit = 0` and `limit = -3` are no-ops on the fresh
manager (the limit reads back 4); `limit = 6` updates it to 6. -/
theorem C9_witness :
    ((-3 : Int) < 1) ∧ ((0 : Int) < 1) ∧ ((1 : Int) ≤ 6) ∧
    setLimit initState (some (-3)) = (initState, []) ∧
    setLimit initState (some 0) = (initState, []) ∧
    setLimit initState none = (initState, []) ∧
    (setLimit initState (some 6)).1.limit = 6 :=
  ⟨by decide, by decide, by decide,
    (C9_setLimit_validation initState (-3) 6 (by decide) (by decide)).2.1,
    (C9_setLimit_validation initState 0 6 (by decide) (by decide)).2.1,
    (C9_setLimit_validation initState 0 6 (by decide) (by decide)).1,
    (C9_setLimit_validation initState 0 6 (by decide) (by decide)).2.2.1⟩

/-- C10: in any reachable scheduler state with a free slot, running a
non-callable task leaves the state — running list, queue and shared
store — unchanged and rejects the promise (after the queue-drain
attempt, which finds the queue empty: reachability guarantees a free
slot implies an empty queue): no URL is produced, no handle is
created, and nothing is queued. -/
theorem C10_noncallable_rejected (s : SchedState) (t : ThreadTask)
    (hs : Reachable s) (hfree : s.running.length < s.limit)
    (hnc : t.callable = false) :
    run s t = (s, [.drainAttempt, .reject]) := by
  have hq : s.queue = [] := by
    by_contra h
    exact absurd (reachable_queueBlocked s hs h) (Nat.not_le.mpr hfree)
  simp only [run, if_pos hfree, executeThread, createThread, hnc]
  simp [updateThreadQueue, hq, drainLoop]

/-- C10, witness: the fresh manager rejects a non-callable task and is
left exactly as it was. -/
theorem C10_witness :
    initState.running.length < initState.limit ∧
    run initState { tid := 0, callable := false, spawnOk := true } =
      (initState, [.drainAttempt, .reject]) :=
  ⟨by decide,
    C10_noncallable_rejected initState
      { tid := 0, callable := false, spawnOk := true }
      Reachable.base (by decide) rfl⟩
